import Mathlib

/-!
Verification development for the MP4 demuxer core (`src/demux/mp4-demuxer.js`).

The JavaScript source is shallowly embedded: byte buffers become `List Nat`
(each element one byte of the `ArrayBuffer` / `Uint8Array`), big-endian reads
become explicit arithmetic, JS `number` arithmetic on timestamps becomes exact
rational arithmetic (`ℚ`), and functions that can throw or bail out return
`Option` / tagged results.  Out-of-range typed-array reads, which yield
`undefined` (propagating as `NaN`) in JS, are modelled with default `0` via
`List.getD`; every claim below is evaluated only at in-bounds inputs or under
hypotheses that keep the reads in bounds, so this choice is never load-bearing.
-/

/-- Byte read: models indexing a `Uint8Array` at a `Nat` index (values are
bytes, hence the `% 256`; a JS out-of-range read gives `undefined`, modelled
as `0`). -/
def getU8 (data : List Nat) (i : Nat) : Nat :=
  (data.getD i 0) % 256

/-- Big-endian unsigned 32-bit read, models `DataView.getUint32(i, false)`. -/
def getU32 (data : List Nat) (i : Nat) : Nat :=
  getU8 data i * 2 ^ 24 + getU8 data (i + 1) * 2 ^ 16 + getU8 data (i + 2) * 2 ^ 8 +
    getU8 data (i + 3)

/-- Reinterpret a natural number as a signed 32-bit value, as JS bitwise
operators do. -/
def toInt32 (n : Nat) : Int :=
  if n % 2 ^ 32 < 2 ^ 31 then ((n % 2 ^ 32 : Nat) : Int)
  else ((n % 2 ^ 32 : Nat) : Int) - 2 ^ 32

/-- Byte read at a possibly negative index (JS indexing with a signed value;
negative or out-of-range indices give `undefined`, modelled as `0`). -/
def getU8I (data : List Nat) (i : Int) : Nat :=
  if 0 ≤ i then getU8 data i.toNat else 0

/-- Embedding of the file-local helper `ReadBig32(array, index)`:
`(a[i] << 24) | (a[i+1] << 16) | (a[i+2] << 8) | a[i+3]`.  JS `<<` and `|`
work on signed 32-bit integers, so the result is the signed reinterpretation
of the big-endian word. -/
def readBig32 (data : List Nat) (i : Int) : Int :=
  toInt32 (getU8I data i * 2 ^ 24 + getU8I data (i + 1) * 2 ^ 16 +
    getU8I data (i + 2) * 2 ^ 8 + getU8I data (i + 3))

/-- Record returned by `MP4Demuxer.probe` on a match (the JS object literal at
the end of `probe`; the JS field `match` is the `matched` constructor of
`ProbeOutcome` below). -/
structure ProbeRecord where
  consumed : Int
  dataOffset : Int
  rawDataSize : Int
  infoOffset : Int
  hasAudioTrack : Bool
  hasVideoTrack : Bool
  deriving DecidableEq

/-- Result of `MP4Demuxer.probe`: either `{match: false}` or `{match: true, ...}`. -/
inductive ProbeOutcome where
  | mismatch
  | matched (r : ProbeRecord)
  deriving DecidableEq

/-- Embedding of `static probe(buffer)` (mp4-demuxer.js lines 147-172):
reads `offset1 = ReadBig32(data, 0)`, requires bytes 4..7 to be `'ftyp'`,
then `offset2 = ReadBig32(data, offset1)`, `dataOffset = offset1 + offset2`,
`size = ReadBig32(data, dataOffset)`, and returns the record with
`hasAudioTrack = false`, `hasVideoTrack = true` set unconditionally. -/
def MP4Demuxer.probe (data : List Nat) : ProbeOutcome :=
  let offset1 := readBig32 data 0
  if getU8I data 4 ≠ 0x66 ∨ getU8I data 5 ≠ 0x74 ∨ getU8I data 6 ≠ 0x79 ∨
      getU8I data 7 ≠ 0x70 then
    .mismatch
  else
    let offset2 := readBig32 data offset1
    let dataOffset := offset1 + offset2
    let size := readBig32 data dataOffset
    .matched ⟨dataOffset, dataOffset, size, dataOffset + size, false, true⟩

/-- Concrete buffer: an `ftyp` box of size 16 (`isom`, minor version 1),
followed by a `moov` box of size 8, followed by a `free` box of size 8. -/
def c4Buf : List Nat :=
  [0, 0, 0, 16, 0x66, 0x74, 0x79, 0x70, 0x69, 0x73, 0x6F, 0x6D, 0, 0, 0, 1,
   0, 0, 0, 8, 0x6D, 0x6F, 0x6F, 0x76,
   0, 0, 0, 8, 0x66, 0x72, 0x65, 0x65]

/-- One `stsc` entry as produced by `_parseStsc`: `{firstChk, samPerChk, samDesIndex}`. -/
structure StscEntry where
  firstChk : Nat
  samPerChk : Nat
  samDesIndex : Nat
  deriving DecidableEq

/-- Parsed `stsc` box.  `_parseStsc` stores `entryCount` and then pushes exactly
`entryCount` entries, so the embedding identifies `entryCount` with
`entries.length`. -/
structure Stsc where
  entries : List StscEntry
  deriving DecidableEq

/-- Parsed `stsz` box as produced by `_parseStsz`: the constant `sampleSize`
field, the `sampleCount` field, the explicit `samples` array, and the running
`total` (`filesize` in the JS). -/
structure Stsz where
  sampleSize : Nat
  sampleCount : Nat
  samples : List Nat
  total : Nat
  deriving DecidableEq

/-- Parsed `stco` box.  As with `Stsc`, `_parseStco` pushes exactly
`entryCount` offsets, so `entryCount` is identified with `entries.length`. -/
structure Stco where
  entries : List Nat
  deriving DecidableEq

/-- One `stts` entry: `{samCount, samDelta}`. -/
structure SttsEntry where
  samCount : Nat
  samDelta : Nat
  deriving DecidableEq

/-- Parsed `stts` box. -/
structure Stts where
  entries : List SttsEntry
  deriving DecidableEq

/-- One `elst` entry as produced by `_parseElst` (version 0). -/
structure ElstEntry where
  segDuration : Nat
  mediaTime : Nat
  mediaRateInt : Nat
  mediaRateFrac : Nat
  deriving DecidableEq

/-- Parsed `elst` box. -/
structure Elst where
  entries : List ElstEntry
  deriving DecidableEq

/-- The sample-size read loop of `_parseStsz` (lines 823-828): reads `n`
big-endian u32 words starting at `offset`, advancing by 4, returning the list
of words (`samples`) and their sum (`filesize`). -/
def stszReadLoop (bytes : List Nat) : Nat → Nat → List Nat × Nat
  | 0, _ => ([], 0)
  | n + 1, offset =>
    let s := getU32 bytes offset
    let r := stszReadLoop bytes n (offset + 4)
    (s :: r.1, s + r.2)

/-- Embedding of `_parseStsz(arrayBuffer, dataOffset, dataSize)` (lines
806-831).  Reads, relative to `dataOffset`: version/flags at offset 8,
`sampleSize` at offset 12, `sampleCount` at offset 16, and then —
unconditionally, with no branch on `sampleSize` — `sampleCount` u32 sample
sizes from offset 20 on.  `dataSize` is used in the JS only to construct the
`DataView`; view bounds are not modelled. -/
def MP4Demuxer.parseStsz (bytes : List Nat) (dataOffset dataSize : Nat) : Stsz :=
  let sampleSize := getU32 bytes (dataOffset + 12)
  let sampleCount := getU32 bytes (dataOffset + 16)
  let r := stszReadLoop bytes sampleCount (dataOffset + 20)
  ⟨sampleSize, sampleCount, r.1, r.2⟩

/-- The per-chunk record built in phase 1 of `_samDetails`:
`{samCount, sdi}` (the JS also later stores a dead `firstSamIndex` field on
it, which nothing reads; it is omitted). -/
structure ChkEntry where
  samCount : Nat
  sdi : Nat
  deriving DecidableEq

/-- One record of the flat sample table built by `_samDetails`:
`{chkIndex, indexInChk, offset, size}`. -/
structure SamEntry where
  chkIndex : Nat
  indexInChk : Nat
  offset : Nat
  size : Nat
  deriving DecidableEq

/-- JS array store `a[j] = v`.  For `j < a.size` it overwrites; for larger `j`
the JS array grows, with the skipped slots left as holes (`none`). -/
def jsArraySet (a : Array (Option ChkEntry)) (j : Nat) (v : ChkEntry) :
    Array (Option ChkEntry) :=
  if h : j < a.size then a.set ⟨j, h⟩ (some v)
  else (a ++ Array.mkArray (j - a.size) none).push (some v)

/-- The inner loop of phase 1 of `_samDetails` (lines 411-416): for
`j = e.firstChk - 1` while `j < lastChkCount - 1`, store
`{samCount := e.samPerChk, sdi := e.samDesIndex}` at index `j`.  (When
`firstChk = 0` the JS starts at `j = -1`, whose store is invisible to later
integer-indexed reads; the embedding starts at the first visible index.) -/
def fillChunkEntries (a : Array (Option ChkEntry)) (e : StscEntry) (lastChkCount : Nat) :
    Array (Option ChkEntry) :=
  (List.range' (e.firstChk - 1) (lastChkCount - 1 - (e.firstChk - 1))).foldl
    (fun a j => jsArraySet a j ⟨e.samPerChk, e.samDesIndex⟩) a

/-- Phase 1 of `_samDetails` (lines 403-418): allocate `chkEntris` of length
`count = stco.entryCount`, then walk the `stsc` entries from last to first,
carrying `lastChkCount` (initially `count + 1`) and setting it to the entry's
`firstChk` after filling. -/
def MP4Demuxer.fillChunkTable (stsc : Stsc) (count : Nat) : Array (Option ChkEntry) :=
  (stsc.entries.reverse.foldl
    (fun (p : Array (Option ChkEntry) × Nat) e => (fillChunkEntries p.1 e p.2, e.firstChk))
    (Array.mkArray count none, count + 1)).1

/-- Extract the per-chunk sample counts from a chunk table, failing on the
first hole (reading a hole would throw in the JS). -/
def chunkCountsList : List (Option ChkEntry) → Option (List Nat)
  | [] => some []
  | none :: _ => none
  | some ce :: rest => (chunkCountsList rest).map (fun cs => ce.samCount :: cs)

/-- The sample counts per chunk implied by the expanded `stsc` table:
`some` when every chunk slot was covered by an `stsc` entry. -/
def MP4Demuxer.chunkCounts (stsc : Stsc) (count : Nat) : Option (List Nat) :=
  chunkCountsList (MP4Demuxer.fillChunkTable stsc count).toList

/-- The inner loop of phase 2 of `_samDetails` (lines 425-436): emit
`samCount` records for chunk `k`, starting the running `samOffset` cursor at
the chunk's `stco` offset, taking each record's `size` from
`stsz.samples[sampleIndex]` and advancing the cursor by it.  Arguments after
`k`: remaining samples, `samOffset`, `sampleIndex`, `indexInChk`. -/
def samDetailsInner (samples : List Nat) (k : Nat) :
    Nat → Nat → Nat → Nat → List SamEntry
  | 0, _, _, _ => []
  | l + 1, samOffset, sampleIndex, indexInChk =>
    let sz := samples.getD sampleIndex 0
    ⟨k, indexInChk, samOffset, sz⟩ ::
      samDetailsInner samples k l (samOffset + sz) (sampleIndex + 1) (indexInChk + 1)

/-- The outer loop of phase 2 of `_samDetails` (lines 420-437): walk the
chunk entries in order (`k = 0, 1, ...`); a hole (`none`) makes the JS throw
(`chkEntris[k].firstSamIndex` on `undefined`), modelled as `none`.  The state
is `(sampleIndex, sam2chk)`. -/
def samDetailsChunks (stcoEntries samples : List Nat) :
    List (Option ChkEntry) → Nat → Nat → List SamEntry → Option (Nat × List SamEntry)
  | [], _, sampleIndex, acc => some (sampleIndex, acc)
  | none :: _, _, _, _ => none
  | some ce :: rest, k, sampleIndex, acc =>
    samDetailsChunks stcoEntries samples rest (k + 1) (sampleIndex + ce.samCount)
      (acc ++ samDetailsInner samples k ce.samCount (stcoEntries.getD k 0) sampleIndex 0)

/-- Embedding of `_samDetails(stsc, stsz, stco)` (lines 402-443): phase 1
builds the per-chunk table, phase 2 flattens it into `sam2chk`, and the final
guard returns the table only when `sampleIndex == sam2chk.length` (otherwise
the JS logs a warning and returns `undefined`, modelled as `none`). -/
def MP4Demuxer.samDetails (stsc : Stsc) (stsz : Stsz) (stco : Stco) :
    Option (List SamEntry) :=
  let count := stco.entries.length
  let chkEntris := MP4Demuxer.fillChunkTable stsc count
  match samDetailsChunks stco.entries stsz.samples chkEntris.toList 0 0 [] with
  | none => none
  | some (sampleIndex, sam2chk) =>
    if sampleIndex = sam2chk.length then some sam2chk else none

/-- Cursor walk over one chunk as worded by the spec (§4.D step 2), for the
refinement comparison with `samDetailsInner`: for chunk `k`, each sample gets
`fileOffset = cursor` and `size = samples[globalSampleIndex]`, then the cursor
advances by that size.  Arguments after `k`: remaining samples, `indexInChunk`,
cursor, global sample index. -/
def specChunk (samples : List Nat) (k : Nat) : Nat → Nat → Nat → Nat → List SamEntry
  | 0, _, _, _ => []
  | n + 1, j, cursor, gi =>
    let sz := samples.getD gi 0
    ⟨k, j, cursor, sz⟩ :: specChunk samples k n (j + 1) (cursor + sz) (gi + 1)

/-- Chunk-by-chunk cursor walk as worded by the spec: chunk `k` starts its
cursor at `stco.entries[k]` and contributes `counts[k]` samples. -/
def specFlatGo (stcoEntries samples : List Nat) : List Nat → Nat → Nat → List SamEntry
  | [], _, _ => []
  | c :: cs, k, gi =>
    specChunk samples k c 0 (stcoEntries.getD k 0) gi ++
      specFlatGo stcoEntries samples cs (k + 1) (gi + c)

/-- The flat sample table described by the spec, given the per-chunk sample
counts from the expanded `stsc`. -/
def specFlatTable (counts stcoEntries samples : List Nat) : List SamEntry :=
  specFlatGo stcoEntries samples counts 0 0

/-- The `stsc`/`stco`/`stsz` triple of boundary scenario 4 of the spec (also
claim C1's test vector). -/
def exStsc : Stsc := ⟨[⟨1, 2, 1⟩, ⟨3, 1, 1⟩]⟩

/-- Sample sizes `[50,50,50,50,50]` for the same scenario. -/
def exStsz : Stsz := ⟨0, 5, [50, 50, 50, 50, 50], 250⟩

/-- Chunk offsets `[100, 300, 500, 600]` for the same scenario. -/
def exStco : Stco := ⟨[100, 300, 500, 600]⟩

/-- Single-chunk `stsc` for the C3 witness (boundary scenario 3 of the spec). -/
def wStsc : Stsc := ⟨[⟨1, 1, 1⟩]⟩

/-- Single-sample `stsz` for the C3 witness. -/
def wStsz : Stsz := ⟨0, 1, [1024], 1024⟩

/-- Single-chunk `stco` for the C3 witness. -/
def wStco : Stco := ⟨[2048]⟩

/-- Flat-table input for the C2 evaluation (one sample, as in boundary
scenario 3 of the spec). -/
def c2Sam : List SamEntry := [⟨0, 0, 2048, 1024⟩]

/-- One-entry `stts` for the C2 evaluation. -/
def c2Stts : Stts := ⟨[⟨1, 3000⟩]⟩

/-- Edit list with `entries[0].mediaTime = 9000` for the C2 evaluation. -/
def c2Elst : Elst := ⟨[⟨0, 9000, 1, 0⟩]⟩

/-- Concrete `stsz` box: size 28, type `stsz`, version/flags 0,
`sampleSize = 7` (nonzero!), `sampleCount = 2`, explicit sizes `[10, 20]`. -/
def c5Box : List Nat :=
  [0, 0, 0, 28, 0x73, 0x74, 0x73, 0x7A, 0, 0, 0, 0,
   0, 0, 0, 7, 0, 0, 0, 2, 0, 0, 0, 10, 0, 0, 0, 20]

/-- Sample bytes for the C8 counterexample: a first NAL of declared size 2
(type 5), then a second NAL whose declared size 5 exceeds the 2 bytes
remaining after its length prefix (`dataSize = 12`); the surrounding buffer
is larger than the sample, as in the real call (the sample is a slice of the
whole file buffer). -/
def c8Bytes : List Nat :=
  [0, 0, 0, 2, 0x65, 0xAA, 0, 0, 0, 5, 0x41, 0xBB, 0, 0, 0, 0, 0, 0, 0]


/-- One timing record produced by `_timeDetials`: `{dts, cts, pts}`.
JS `number` arithmetic is modelled exactly over `ℚ`. -/
structure TimeEntry where
  dts : ℚ
  cts : ℚ
  pts : ℚ
  deriving DecidableEq

/-- The double loop of `_timeDetials` (lines 450-462): for the `j`-th sample
of entry `i`, `dts = dtsSum + samDelta * j - startOffset` where `startOffset`
is the (loop-invariant) value `startTime / mvhdts * mdhdts`; `cts = 0` and
`pts = dts`.  The JS adds `samDelta * (j + 1)` to `dtsSum` at the last `j` of
each entry; the embedding equivalently adds `samDelta * samCount` when moving
to the next entry (for `samCount = 0` both add nothing). -/
def sttsTimes (startOffset : ℚ) : List SttsEntry → ℚ → List TimeEntry
  | [], _ => []
  | e :: rest, dtsSum =>
    ((List.range e.samCount).map (fun j =>
      let d : ℚ := dtsSum + (e.samDelta : ℚ) * (j : ℚ) - startOffset
      ⟨d, 0, d⟩)) ++
    sttsTimes startOffset rest (dtsSum + (e.samDelta : ℚ) * (e.samCount : ℚ))

/-- Embedding of `_timeDetials(sam, mvhdts, mdhdts, stts, elst)` (lines
445-463).  `startTime` is `elst.entries[0].mediaTime` when an edit list is
present, else `0`; each computed `{dts, cts, pts}` record is merged
(`Object.assign`) into `sam[sampleIndex]` in order.  The embedding returns
the merged list as pairs; when `stts` implies more samples than `sam` holds
the JS throws (`Object.assign` on `undefined`), modelled as `none`; samples
beyond the `stts` total keep no timing fields (`none` in the pair). -/
def MP4Demuxer.timeDetials (sam : List SamEntry) (mvhdts mdhdts : ℚ)
    (stts : Stts) (elst : Option Elst) : Option (List (SamEntry × Option TimeEntry)) :=
  let startTime : ℚ :=
    match elst with
    | some e => ((e.entries.headD ⟨0, 0, 0, 0⟩).mediaTime : ℚ)
    | none => 0
  let times := sttsTimes (startTime / mvhdts * mdhdts) stts.entries 0
  if sam.length < times.length then none
  else
    some (((sam.take times.length).zip times).map (fun p => (p.1, some p.2)) ++
      (sam.drop times.length).map (fun s => (s, none)))

/-- The call site in `parseChunks` (line 384):
`this._timeDetials(sam2chk, this._videoMetadata.timescale_mdhd,
this._videoMetadata.timescale, this.stts, this.elst)` — the `mdhd` timescale
is passed into the parameter named `mvhdts` and the `mvhd` timescale into the
parameter named `mdhdts`. -/
def MP4Demuxer.parseChunksTime (sam2chk : List SamEntry) (timescale_mdhd timescale : ℚ)
    (stts : Stts) (elst : Option Elst) : Option (List (SamEntry × Option TimeEntry)) :=
  MP4Demuxer.timeDetials sam2chk timescale_mdhd timescale stts elst

/-- Frame-rate record as produced by the SPS parser / used by `_parseStsd`.
`fps`, `fps_num`, `fps_den` are JS numbers, modelled over `ℚ`. -/
structure FrameRate where
  fixed : Bool
  fps : ℚ
  fps_num : ℚ
  fps_den : ℚ
  deriving DecidableEq

/-- The constructor default `this._referenceFrameRate` (lines 84-89). -/
def referenceFrameRate : FrameRate := ⟨true, 23976 / 1000, 23976, 1000⟩

/-- The video-metadata accumulator object (`this._videoMetadata`), created
empty (`{}`) in `_parseMvhd` and filled incrementally.  Every field starts
absent (`none`).  Note the two distinct fields: `timescale` is written by
`_parseMvhd` (line 504) and `timescale_mdhd` by `_parseMdhd` (line 584);
`timescale_mvhd` is the property *read* at line 708 — no parser ever writes
it. -/
structure VideoMeta where
  id : Option Nat := none
  timescale : Option Nat := none
  duration : Option Nat := none
  timescale_mdhd : Option Nat := none
  duration_mdhd : Option Nat := none
  timescale_mvhd : Option Nat := none
  frameRate : Option FrameRate := none
  refSampleDuration : Option ℚ := none
  deriving DecidableEq

/-- Embedding of `_parseMvhd` (lines 484-514), metadata effect only: when the
accumulator does not exist yet, create it and set `id` (from the video track
stub, always `1`), `timescale` (u32 at body offset 20) and `duration` (u32 at
body offset 24); otherwise leave it unchanged (the JS only logs a warning). -/
def MP4Demuxer.parseMvhd (bytes : List Nat) (dataOffset : Nat) (meta : Option VideoMeta) :
    VideoMeta :=
  match meta with
  | none =>
    { id := some 1,
      timescale := some (getU32 bytes (dataOffset + 20)),
      duration := some (getU32 bytes (dataOffset + 24)) }
  | some m => m

/-- Embedding of `_parseMdhd` (lines 571-596), metadata effect only: for
version 0 set `timescale_mdhd` (u32 at body offset 20) and `duration_mdhd`
(u32 at body offset 24); other versions are stubbed out in the source. -/
def MP4Demuxer.parseMdhd (bytes : List Nat) (dataOffset : Nat) (meta : VideoMeta) :
    VideoMeta :=
  if getU8 bytes (dataOffset + 8) = 0 then
    { meta with
      timescale_mdhd := some (getU32 bytes (dataOffset + 20)),
      duration_mdhd := some (getU32 bytes (dataOffset + 24)) }
  else meta

/-- Embedding of the frame-rate / `refSampleDuration` step of `_parseStsd`
(lines 698-708): substitute the default frame rate when the SPS one is not
fixed or has a zero numerator or denominator, then compute
`meta.refSampleDuration = meta.timescale_mvhd * (fps_den / fps_num)` — note
the source reads the property `timescale_mvhd`, which no parser ever writes,
so in JS this multiplies `undefined` (giving `NaN`), modelled as mapping over
`none`. -/
def MP4Demuxer.stsdFrameRateStep (meta : VideoMeta) (frame_rate : FrameRate) : VideoMeta :=
  let fr :=
    if frame_rate.fixed = false ∨ frame_rate.fps_num = 0 ∨ frame_rate.fps_den = 0 then
      referenceFrameRate
    else frame_rate
  { meta with
    frameRate := some fr,
    refSampleDuration := meta.timescale_mvhd.map (fun t => (t : ℚ) * (fr.fps_den / fr.fps_num)) }

/-- Error messages emitted through `onError(DemuxErrors.FORMAT_ERROR, ...)`
during `avcC` parsing, as tagged constructors (the message strings are
constant templates; `strangeNaluLengthSizeMinusOne n` stands for
`'MP4: Strange NaluLengthSizeMinusOne: <n>'`). -/
inductive DemuxErrorMsg where
  | invalidAVCConfigRecord
  | strangeNaluLengthSizeMinusOne (n : Nat)
  | noSPS
  | noPPS
  deriving DecidableEq

/-- Outcome of the `avcC` validation prologue of `_parseStsd`. -/
inductive AvcCCheck where
  | formatError (msg : DemuxErrorMsg)
  | ok (naluLengthSize : Nat)
  deriving DecidableEq

/-- Embedding of `_parseStsd` lines 644-658, with `offset` pointing at the
`configurationVersion` byte: read `confVer`, `avcProfile`,
`profileCompatibility` and `avcLevel` (the middle two are read but unused);
fail with the invalid-record error when `confVer !== 1 || avcProfile === 0`;
else compute `naluLengthSize = ((byte & 3) & 3) + 1` from the next byte and
fail with the strange-length error (carrying `naluLengthSize - 1`) when the
result is neither 3 nor 4. -/
def MP4Demuxer.avcCValidate (bytes : List Nat) (offset : Nat) : AvcCCheck :=
  let confVer := getU8 bytes offset
  let avcProfile := getU8 bytes (offset + 1)
  if confVer ≠ 1 ∨ avcProfile = 0 then .formatError .invalidAVCConfigRecord
  else
    let naluLengthSize := getU8 bytes (offset + 4) % 4 % 4 + 1
    if naluLengthSize ≠ 3 ∧ naluLengthSize ≠ 4 then
      .formatError (.strangeNaluLengthSizeMinusOne (naluLengthSize - 1))
    else .ok naluLengthSize

/-- One NAL unit recorded by `_parseAVCVideoData`: `{type, data}` where
`data` is the length prefix plus payload slice. -/
structure NalUnit where
  type : Nat
  data : List Nat
  deriving DecidableEq

/-- The sample object appended to `_videoTrack.samples` (lines 1017-1024).
`dts`/`pts` are `Option ℚ` because the call site passes `sam2chk.dts`, a
nonexistent property of the array, i.e. `undefined` (`none`). -/
structure AvcSample where
  units : List NalUnit
  length : Nat
  isKeyframe : Bool
  dts : Option ℚ
  cts : ℚ
  pts : Option ℚ
  deriving DecidableEq

/-- The declared NAL size read at `offset`: a big-endian u32, right-shifted by
8 when the length prefix is 3 bytes (lines 992-995). -/
def nalSizeAt (bytes : List Nat) (dataOffset offset lengthSize : Nat) : Nat :=
  let n := getU32 bytes (dataOffset + offset)
  if lengthSize = 3 then n / 256 else n

/-- Result of the NAL-splitting `while` loop of `_parseAVCVideoData`:
`malformedReturn` models the `return` after the `NaluSize > DataSize!`
warning (nothing is appended), `finished` the accumulated state at loop exit
(by `break` after the short-header warning, or by `offset >= dataSize`), and
`fuelOut` the JS nontermination possible only for `lengthSize = 0` with
zero-sized NALs. -/
inductive AvcLoop where
  | malformedReturn
  | finished (units : List NalUnit) (length : Nat) (keyframe : Bool)
  | fuelOut
  deriving DecidableEq

/-- The `while` loop of `_parseAVCVideoData` (lines 986-1013).  Per
iteration: stop (`break`) when `offset + 4 >= dataSize`; read the declared
NAL size; `return` (malformed) when it exceeds `dataSize - lengthSize` (a
Nat subtraction, safe because the loop only reaches this check with
`dataSize > 4 >= lengthSize`); else record the unit — type from the low 5
bits of the byte after the prefix, data the prefix-plus-payload slice — set
`keyframe` on type 5, and advance. -/
def MP4Demuxer.parseAVCLoop (bytes : List Nat) (dataOffset dataSize lengthSize : Nat) :
    Nat → Nat → List NalUnit → Nat → Bool → AvcLoop
  | 0, _, _, _, _ => .fuelOut
  | fuel + 1, offset, units, length, keyframe =>
    if offset < dataSize then
      if dataSize ≤ offset + 4 then .finished units length keyframe
      else
        let naluSize := nalSizeAt bytes dataOffset offset lengthSize
        if dataSize - lengthSize < naluSize then .malformedReturn
        else
          let unitType := getU8 bytes (dataOffset + offset + lengthSize) % 32
          let keyframe2 := if unitType = 5 then true else keyframe
          let data := (bytes.drop (dataOffset + offset)).take (lengthSize + naluSize)
          MP4Demuxer.parseAVCLoop bytes dataOffset dataSize lengthSize fuel
            (offset + (lengthSize + naluSize)) (units ++ [⟨unitType, data⟩])
            (length + data.length) keyframe2
    else .finished units length keyframe

/-- Overall result of `_parseAVCVideoData` for one sample: appended to the
video track, dropped by the malformed-NALU `return`, or not appended because
no units were collected. -/
inductive AvcResult where
  | malformed
  | notAppended
  | appended (s : AvcSample)
  | diverged
  deriving DecidableEq

/-- Embedding of `_parseAVCVideoData(arrayBuffer, dataOffset, dataSize, dts)`
(lines 977-1031): run the NAL-splitting loop (fuel `dataSize + 1` suffices
whenever `lengthSize ≥ 1`, since every iteration advances `offset` by at
least `lengthSize`), then append `{units, length, isKeyframe, dts, cts: 0,
pts: dts}` iff `units.length` is nonzero. -/
def MP4Demuxer.parseAVCVideoData (bytes : List Nat) (dataOffset dataSize : Nat)
    (dts : Option ℚ) (lengthSize : Nat) : AvcResult :=
  match MP4Demuxer.parseAVCLoop bytes dataOffset dataSize lengthSize (dataSize + 1) 0 [] 0 false with
  | .fuelOut => .diverged
  | .malformedReturn => .malformed
  | .finished units length keyframe =>
    if units.length ≠ 0 then .appended ⟨units, length, keyframe, dts, 0, dts⟩
    else .notAppended

/-- The inner loop of `_samDetails` is exactly the per-chunk cursor walk of
the spec (same records, arguments permuted). -/
lemma samDetailsInner_eq_specChunk (samples : List Nat) (k : Nat) :
    ∀ n samOffset gi j,
      samDetailsInner samples k n samOffset gi j = specChunk samples k n j samOffset gi := by
  intro n
  induction n with
  | zero => intro samOffset gi j; rfl
  | succ m ih =>
    intro samOffset gi j
    simp only [samDetailsInner, specChunk]
    exact congrArg _ (ih _ _ _)

/-- Each chunk of the spec walk contributes exactly its sample count. -/
lemma specChunk_length (samples : List Nat) (k : Nat) :
    ∀ n j cursor gi, (specChunk samples k n j cursor gi).length = n := by
  intro n
  induction n with
  | zero => intro j cursor gi; rfl
  | succ m ih =>
    intro j cursor gi
    simp only [specChunk, List.length_cons, ih]

/-- The spec's flat table has `counts.sum` records. -/
lemma specFlatGo_length (stcoEntries samples : List Nat) :
    ∀ cs k gi, (specFlatGo stcoEntries samples cs k gi).length = cs.sum := by
  intro cs
  induction cs with
  | nil => intro k gi; rfl
  | cons c cs ih =>
    intro k gi
    simp only [specFlatGo, List.length_append, specChunk_length, ih, List.sum_cons]

/-- Phase 2 of `_samDetails`, run on a chunk table whose entries are all
present (with per-chunk counts `cs`), appends exactly the spec's cursor walk
and counts `cs.sum` samples. -/
lemma samDetailsChunks_spec (stcoEntries samples : List Nat) :
    ∀ (lst : List (Option ChkEntry)) (cs : List Nat) (k gi : Nat) (acc : List SamEntry),
      chunkCountsList lst = some cs →
      samDetailsChunks stcoEntries samples lst k gi acc
        = some (gi + cs.sum, acc ++ specFlatGo stcoEntries samples cs k gi) := by
  intro lst
  induction lst with
  | nil =>
    intro cs k gi acc h
    simp only [chunkCountsList, Option.some.injEq] at h
    subst h
    simp [samDetailsChunks, specFlatGo]
  | cons o rest ih =>
    intro cs k gi acc h
    cases o with
    | none => simp [chunkCountsList] at h
    | some ce =>
      simp only [chunkCountsList, Option.map_eq_some'] at h
      obtain ⟨cs', hrest, rfl⟩ := h
      simp only [samDetailsChunks]
      rw [ih cs' (k + 1) (gi + ce.samCount) _ hrest]
      simp only [specFlatGo, List.sum_cons, samDetailsInner_eq_specChunk,
        List.append_assoc, Option.some.injEq, Nat.add_assoc]

/-- When every chunk is covered by the expanded `stsc` (counts `cs`),
`_samDetails` succeeds and returns exactly the spec's cursor-walk table. -/
lemma samDetails_eq_spec (stsc : Stsc) (stsz : Stsz) (stco : Stco) (cs : List Nat)
    (h : MP4Demuxer.chunkCounts stsc stco.entries.length = some cs) :
    MP4Demuxer.samDetails stsc stsz stco
      = some (specFlatTable cs stco.entries stsz.samples) := by
  unfold MP4Demuxer.chunkCounts at h
  unfold MP4Demuxer.samDetails
  dsimp only
  rw [samDetailsChunks_spec stco.entries stsz.samples _ cs 0 0 [] h]
  simp [specFlatTable, specFlatGo_length]

/-- Claim C1 (corrected): `_samDetails` walks chunks in order, starts the
offset cursor of chunk `k` at `stco.entries[k]`, gives each sample
`fileOffset = cursor` and `size = stsz.samples[globalSampleIndex]`, and
advances the cursor by that size — whenever the expanded `stsc` covers every
chunk.  On the claim's own test vector (`stsc = [{1,2,1},{3,1,1}]`,
`stco = [100,300,500,600]`, `stsz.samples = [50,50,50,50,50]`) the resulting
flat table has SIX entries with offsets `[100,150,300,350,500,600]`: the last
`stsc` entry also applies to chunk 4, which contributes a sample at offset
600 (its size read out of range), not the five offsets the claim states. -/
theorem samDetails_cursor_walk :
    (∀ (stsc : Stsc) (stsz : Stsz) (stco : Stco) (cs : List Nat),
        MP4Demuxer.chunkCounts stsc stco.entries.length = some cs →
        MP4Demuxer.samDetails stsc stsz stco
          = some (specFlatTable cs stco.entries stsz.samples)) ∧
    (MP4Demuxer.samDetails exStsc exStsz exStco).map (fun l => l.map SamEntry.offset)
      = some [100, 150, 300, 350, 500, 600] :=
  ⟨fun stsc stsz stco cs h => samDetails_eq_spec stsc stsz stco cs h, by decide⟩

/-- Witness for C1: the general cursor-walk theorem applied at the claim's
test vector, whose per-chunk counts are `[2, 2, 1, 1]`. -/
theorem samDetails_cursor_walk_witness :
    MP4Demuxer.samDetails exStsc exStsz exStco
      = some (specFlatTable [2, 2, 1, 1] exStco.entries exStsz.samples) :=
  samDetails_cursor_walk.1 exStsc exStsz exStco [2, 2, 1, 1] (by decide)

/-- Counterexample for C1 as stated: at the claim's test vector the flat
table's offsets are `[100,150,300,350,500,600]`, not `[100,150,300,350,500]`
(the table has a sixth entry for chunk 4). -/
theorem samDetails_flat_offsets_cex :
    (MP4Demuxer.samDetails exStsc exStsz exStco).map (fun l => l.map SamEntry.offset)
        ≠ some [100, 150, 300, 350, 500] ∧
    (MP4Demuxer.samDetails exStsc exStsz exStco).map (fun l => l.map SamEntry.offset)
        = some [100, 150, 300, 350, 500, 600] := by decide

/-- Claim C3 (confirmed): for every valid input — one whose `stsc` expansion
over `stco.entryCount` chunks is defined on every chunk and implies exactly
`stsz.sampleCount` samples — the flat sample table produced by `_samDetails`
has length `stsz.sampleCount`. -/
theorem samDetails_length_eq_sampleCount (stsc : Stsc) (stsz : Stsz) (stco : Stco)
    (cs : List Nat)
    (h1 : MP4Demuxer.chunkCounts stsc stco.entries.length = some cs)
    (h2 : cs.sum = stsz.sampleCount) :
    ∃ l, MP4Demuxer.samDetails stsc stsz stco = some l ∧ l.length = stsz.sampleCount :=
  ⟨specFlatTable cs stco.entries stsz.samples, samDetails_eq_spec stsc stsz stco cs h1, by
    rw [specFlatTable, specFlatGo_length]; exact h2⟩

/-- Witness for C3 at the spec's single-chunk boundary scenario. -/
theorem samDetails_length_eq_sampleCount_witness :
    ∃ l, MP4Demuxer.samDetails wStsc wStsz wStco = some l ∧ l.length = wStsz.sampleCount :=
  samDetails_length_eq_sampleCount wStsc wStsz wStco [1] (by decide) (by decide)

/-- The `stsz` read loop produces exactly the `n` big-endian words starting
at `offset`, 4 bytes apart, together with their sum. -/
lemma stszReadLoop_eq_map (bytes : List Nat) :
    ∀ n offset,
      stszReadLoop bytes n offset
        = ((List.range n).map (fun i => getU32 bytes (offset + 4 * i)),
           ((List.range n).map (fun i => getU32 bytes (offset + 4 * i))).sum) := by
  intro n
  induction n with
  | zero => intro offset; simp [stszReadLoop]
  | succ m ih =>
    intro offset
    have harg : ∀ i : Nat, offset + 4 + 4 * i = offset + 4 * (i + 1) := by
      intro i; ring
    rw [stszReadLoop, ih (offset + 4)]
    simp only [List.range_succ_eq_map, List.map_cons, List.map_map, List.sum_cons,
      Function.comp_def, Nat.succ_eq_add_one, harg, Nat.mul_zero, Nat.add_zero]

/-- Claim C5 (corrected): `_parseStsz` reads the explicit `sampleCount`-length
u32 size array unconditionally — there is no branch on `sampleSize`, so the
array is read (and `samples` filled from it) even when `sampleSize != 0`. -/
theorem parseStsz_always_reads_array (bytes : List Nat) (dataOffset dataSize : Nat) :
    (MP4Demuxer.parseStsz bytes dataOffset dataSize).samples
        = (List.range (getU32 bytes (dataOffset + 16))).map
            (fun i => getU32 bytes (dataOffset + 20 + 4 * i)) ∧
    (MP4Demuxer.parseStsz bytes dataOffset dataSize).samples.length
        = (MP4Demuxer.parseStsz bytes dataOffset dataSize).sampleCount := by
  unfold MP4Demuxer.parseStsz
  dsimp only
  rw [stszReadLoop_eq_map]
  simp

/-- Claim C2 (code bug): at the call site the demuxer passes
`(timescale_mdhd, timescale)` into `_timeDetials`'s parameters
`(mvhdts, mdhdts)` — swapped relative to their names — so with
`mediaTime = 9000`, `timescale_mdhd = 90000`, `timescale_mvhd = 1000` the
composed code subtracts `9000 / 90000 * 1000 = 100` and the first sample's
dts is `-100`, not the `-810000` the claim (and the function's own parameter
naming) prescribes. -/
theorem timeDetials_swapped_timescales :
    MP4Demuxer.parseChunksTime c2Sam 90000 1000 c2Stts (some c2Elst)
        = some [(⟨0, 0, 2048, 1024⟩, some ⟨-100, 0, -100⟩)] ∧
    (-100 : ℚ) ≠ -810000 := by
  constructor
  · simp only [MP4Demuxer.parseChunksTime, MP4Demuxer.timeDetials, c2Sam, c2Stts, c2Elst,
      sttsTimes]
    norm_num [List.range_succ, List.headD]
  · norm_num

/-- Claim C6 (code bug): line 708 computes `refSampleDuration` from
`meta.timescale_mvhd`, a property that no parser ever writes (`_parseMvhd`
writes `meta.timescale`), so after the mvhd → mdhd → stsd pipeline
`refSampleDuration` is `undefined * x`, i.e. `NaN` (`none`), for every input
— never `timescale × (fps_den / fps_num)` as the claim states. -/
theorem refSampleDuration_reads_unset_field (bytes1 bytes2 : List Nat) (off1 off2 : Nat)
    (cfg : FrameRate) :
    (MP4Demuxer.stsdFrameRateStep
        (MP4Demuxer.parseMdhd bytes2 off2 (MP4Demuxer.parseMvhd bytes1 off1 none))
        cfg).refSampleDuration = none := by
  unfold MP4Demuxer.parseMvhd MP4Demuxer.parseMdhd MP4Demuxer.stsdFrameRateStep
  dsimp only
  split_ifs <;> rfl

/-- Claim C7 (confirmed): the `avcC` prologue fails with the invalid-record
format error iff `configurationVersion ≠ 1` or `AVCProfileIndication = 0`;
past that check it computes `naluLengthSize` as the low two bits of the fifth
byte plus one, failing with the strange-length error (carrying
`naluLengthSize - 1`) iff that value is neither 3 nor 4, and succeeding
otherwise. -/
theorem avcCValidate_errors_iff (bytes : List Nat) (off : Nat) :
    (MP4Demuxer.avcCValidate bytes off = .formatError .invalidAVCConfigRecord
        ↔ (getU8 bytes off ≠ 1 ∨ getU8 bytes (off + 1) = 0)) ∧
    (MP4Demuxer.avcCValidate bytes off
          = .formatError (.strangeNaluLengthSizeMinusOne (getU8 bytes (off + 4) % 4))
        ↔ (getU8 bytes off = 1 ∧ getU8 bytes (off + 1) ≠ 0 ∧
            getU8 bytes (off + 4) % 4 + 1 ≠ 3 ∧ getU8 bytes (off + 4) % 4 + 1 ≠ 4)) ∧
    (MP4Demuxer.avcCValidate bytes off = .ok (getU8 bytes (off + 4) % 4 + 1)
        ↔ (getU8 bytes off = 1 ∧ getU8 bytes (off + 1) ≠ 0 ∧
            (getU8 bytes (off + 4) % 4 + 1 = 3 ∨ getU8 bytes (off + 4) % 4 + 1 = 4))) := by
  have hmm : getU8 bytes (off + 4) % 4 % 4 = getU8 bytes (off + 4) % 4 :=
    Nat.mod_mod_of_dvd _ dvd_rfl
  unfold MP4Demuxer.avcCValidate
  dsimp only
  simp only [hmm]
  by_cases h1 : getU8 bytes off ≠ 1 ∨ getU8 bytes (off + 1) = 0
  · rw [if_pos h1]
    refine ⟨by simp [h1], ?_, ?_⟩
    · constructor
      · intro h; simp at h
      · rintro ⟨ha, hb, -⟩
        cases h1 with
        | inl h => exact absurd ha h
        | inr h => exact absurd h hb
    · constructor
      · intro h; simp at h
      · rintro ⟨ha, hb, -⟩
        cases h1 with
        | inl h => exact absurd ha h
        | inr h => exact absurd h hb
  · push_neg at h1
    obtain ⟨hc, hp⟩ := h1
    rw [if_neg (by simp [hc, hp])]
    by_cases h2 : getU8 bytes (off + 4) % 4 + 1 ≠ 3 ∧ getU8 bytes (off + 4) % 4 + 1 ≠ 4
    · rw [if_pos h2]
      refine ⟨by simp [hc, hp], ?_, ?_⟩
      · simp only [AvcCCheck.formatError.injEq,
          DemuxErrorMsg.strangeNaluLengthSizeMinusOne.injEq, Nat.add_sub_cancel]
        simp [hc, hp, h2.1, h2.2]
      · constructor
        · intro h; simp at h
        · rintro ⟨-, -, h⟩
          cases h with
          | inl h => exact absurd h h2.1
          | inr h => exact absurd h h2.2
    · rw [if_neg h2]
      rw [not_and_or, not_not, not_not] at h2
      refine ⟨by simp [hc, hp], ?_, by simp [hc, hp]; omega⟩
      constructor
      · intro h; simp at h
      · rintro ⟨-, -, h3, h4⟩
        cases h2 with
        | inl h => exact absurd h h3
        | inr h => exact absurd h h4

/-- Counterexample for C5 as stated: with `sampleSize = 7 ≠ 0` the parser
still reads the explicit array (`samples = [10, 20]`), and `_samDetails`
takes each sample's size from that array — `[10, 20]`, not `[7, 7]`. -/
theorem parseStsz_nonzero_sampleSize_cex :
    (MP4Demuxer.parseStsz c5Box 0 28).sampleSize = 7 ∧
    (MP4Demuxer.parseStsz c5Box 0 28).samples = [10, 20] ∧
    (MP4Demuxer.samDetails ⟨[⟨1, 2, 1⟩]⟩ (MP4Demuxer.parseStsz c5Box 0 28) ⟨[64]⟩).map
        (fun l => l.map SamEntry.size) = some [10, 20] ∧
    [10, 20] ≠ [7, 7] := by decide

/-- Claim C8 (amended, part 1): when the FIRST NAL unit's declared size
already exceeds `dataSize - lengthSize`, the framer takes the
`NaluSize > DataSize!` `return` and the sample is not appended (`malformed`).
The guard compares against the whole sample minus one length prefix, not
against the bytes remaining at the current NAL (see the counterexample). -/
theorem parseAVCVideoData_first_nalu_oversize (bytes : List Nat) (dataOffset dataSize : Nat)
    (dts : Option ℚ) (lengthSize : Nat)
    (h4 : 4 < dataSize)
    (hsz : dataSize - lengthSize < nalSizeAt bytes dataOffset 0 lengthSize) :
    MP4Demuxer.parseAVCVideoData bytes dataOffset dataSize dts lengthSize = .malformed := by
  unfold MP4Demuxer.parseAVCVideoData
  rw [MP4Demuxer.parseAVCLoop]
  rw [if_pos (by omega : 0 < dataSize), if_neg (by omega : ¬ dataSize ≤ 0 + 4),
    if_pos hsz]

/-- Witness for C8: a single 4-byte length prefix declaring a 9-byte NAL in a
6-byte sample is dropped as malformed. -/
theorem parseAVCVideoData_first_nalu_oversize_witness :
    MP4Demuxer.parseAVCVideoData [0, 0, 0, 9, 0, 0] 0 6 none 4 = .malformed :=
  parseAVCVideoData_first_nalu_oversize [0, 0, 0, 9, 0, 0] 0 6 none 4 (by decide) (by decide)

/-- Counterexample for C8 as stated: the second NAL unit's declared size (5)
exceeds the bytes remaining in the sample after its length prefix
(`12 - (6 + 4) = 2`), yet the guard `naluSize > dataSize - lengthSize`
(`5 > 8`) does not fire: no warning, no stop, and the sample IS appended,
its second unit reading past the end of the sample. -/
theorem parseAVCVideoData_truncated_second_nalu_kept :
    MP4Demuxer.parseAVCVideoData c8Bytes 0 12 none 4
        = .appended ⟨[⟨5, [0, 0, 0, 2, 0x65, 0xAA]⟩, ⟨1, [0, 0, 0, 5, 0x41, 0xBB, 0, 0, 0]⟩],
            15, true, none, 0, none⟩ ∧
    12 - (6 + 4) < 5 := by decide

/-- Keyframe invariant of the NAL-splitting loop: if the accumulated
`keyframe` flag is true exactly when some accumulated unit has type 5, the
same holds for the state at loop exit. -/
lemma parseAVCLoop_keyframe (bytes : List Nat) (dataOffset dataSize lengthSize : Nat) :
    ∀ (fuel offset : Nat) (units : List NalUnit) (length : Nat) (kf : Bool)
      (us : List NalUnit) (len : Nat) (k5 : Bool),
      (kf = true ↔ ∃ u ∈ units, u.type = 5) →
      MP4Demuxer.parseAVCLoop bytes dataOffset dataSize lengthSize fuel offset units length kf
        = .finished us len k5 →
      (k5 = true ↔ ∃ u ∈ us, u.type = 5) := by
  intro fuel
  induction fuel with
  | zero =>
    intro offset units length kf us len k5 hinv hrun
    rw [MP4Demuxer.parseAVCLoop] at hrun
    exact absurd hrun (by simp)
  | succ n ih =>
    intro offset units length kf us len k5 hinv hrun
    rw [MP4Demuxer.parseAVCLoop] at hrun
    by_cases h1 : offset < dataSize
    · rw [if_pos h1] at hrun
      by_cases h2 : dataSize ≤ offset + 4
      · rw [if_pos h2] at hrun
        obtain ⟨rfl, -, rfl⟩ := by simpa using hrun
        exact hinv
      · rw [if_neg h2] at hrun
        dsimp only at hrun
        by_cases h3 : dataSize - lengthSize < nalSizeAt bytes dataOffset offset lengthSize
        · rw [if_pos h3] at hrun
          exact absurd hrun (by simp)
        · rw [if_neg h3] at hrun
          refine ih _ _ _ _ _ _ _ ?_ hrun
          by_cases ht : getU8 bytes (dataOffset + offset + lengthSize) % 32 = 5
          · simp only [ht, if_true, true_iff, List.mem_append, List.mem_singleton]
            exact ⟨_, Or.inr rfl, rfl⟩
          · simp only [ht, if_false, List.mem_append, List.mem_singleton]
            rw [hinv]
            constructor
            · intro ⟨u, hu, hu5⟩; exact ⟨u, Or.inl hu, hu5⟩
            · rintro ⟨u, hu | hu, hu5⟩
              · exact ⟨u, hu, hu5⟩
              · subst hu; exact absurd hu5 ht
    · rw [if_neg h1] at hrun
      obtain ⟨rfl, -, rfl⟩ := by simpa using hrun
      exact hinv

/-- Claim C9 (confirmed): every sample appended by `_parseAVCVideoData` is
marked `isKeyframe` exactly when it contains at least one NAL unit whose type
(low 5 bits of the byte after the length prefix) equals 5. -/
theorem parseAVCVideoData_keyframe_iff (bytes : List Nat) (dataOffset dataSize : Nat)
    (dts : Option ℚ) (lengthSize : Nat) (s : AvcSample)
    (h : MP4Demuxer.parseAVCVideoData bytes dataOffset dataSize dts lengthSize = .appended s) :
    s.isKeyframe = true ↔ ∃ u ∈ s.units, u.type = 5 := by
  unfold MP4Demuxer.parseAVCVideoData at h
  rcases hl : MP4Demuxer.parseAVCLoop bytes dataOffset dataSize lengthSize (dataSize + 1) 0 [] 0
      false with - | ⟨us, len, k5⟩ | -
  · rw [hl] at h; exact absurd h (by simp)
  · rw [hl] at h
    dsimp only at h
    by_cases hu : us.length ≠ 0
    · rw [if_pos hu] at h
      obtain rfl : s = ⟨us, len, k5, dts, 0, dts⟩ := by simpa using h.symm
      simpa using parseAVCLoop_keyframe bytes dataOffset dataSize lengthSize (dataSize + 1)
        0 [] 0 false us len k5 (by simp) hl
    · rw [if_neg hu] at h
      exact absurd h (by simp)
  · rw [hl] at h; exact absurd h (by simp)

/-- Witness for C9: a sample holding one type-5 (IDR) NAL unit is appended
with `isKeyframe = true`, matching the iff. -/
theorem parseAVCVideoData_keyframe_iff_witness :
    (⟨[⟨5, [0, 0, 0, 2, 0x65, 0xAA]⟩], 6, true, none, 0, none⟩ : AvcSample).isKeyframe = true
      ↔ ∃ u ∈ (⟨[⟨5, [0, 0, 0, 2, 0x65, 0xAA]⟩], 6, true, none, 0, none⟩ : AvcSample).units,
          u.type = 5 :=
  parseAVCVideoData_keyframe_iff [0, 0, 0, 2, 0x65, 0xAA] 0 6 none 4 _ (by decide)

/-- Claim C10 (confirmed): whenever `probe` matches, the returned record has
`hasAudioTrack = false` and `hasVideoTrack = true` — the constants assigned
at lines 156-157, independent of the buffer contents. -/
theorem probe_track_flags (data : List Nat) (r : ProbeRecord)
    (h : MP4Demuxer.probe data = .matched r) :
    r.hasAudioTrack = false ∧ r.hasVideoTrack = true := by
  unfold MP4Demuxer.probe at h
  dsimp only at h
  by_cases hc : getU8I data 4 ≠ 0x66 ∨ getU8I data 5 ≠ 0x74 ∨ getU8I data 6 ≠ 0x79 ∨
      getU8I data 7 ≠ 0x70
  · rw [if_pos hc] at h
    exact absurd h (by simp)
  · rw [if_neg hc] at h
    injection h with h2
    subst h2
    exact ⟨rfl, rfl⟩

/-- Witness for C10 at the concrete `ftyp`+`moov`+`free` buffer. -/
theorem probe_track_flags_witness :
    (⟨24, 24, 8, 32, false, true⟩ : ProbeRecord).hasAudioTrack = false ∧
    (⟨24, 24, 8, 32, false, true⟩ : ProbeRecord).hasVideoTrack = true :=
  probe_track_flags c4Buf _ (by decide)

/-- Claim C4 (amended): for a buffer beginning with a valid `ftyp` box
followed by a `moov` box, `probe` matches, but `dataOffset` is
`size(ftyp) + size(of the box after ftyp)` — `offset1 + offset2` in the
source — i.e. it points past the SECOND box, not past `ftyp`;
`rawDataSize` is then read at that position and `infoOffset` is their sum. -/
theorem probe_dataOffset_past_second_box (data : List Nat)
    (hftyp : getU8I data 4 = 0x66 ∧ getU8I data 5 = 0x74 ∧ getU8I data 6 = 0x79 ∧
      getU8I data 7 = 0x70)
    (hmoov : getU8I data (readBig32 data 0 + 4) = 0x6D ∧
      getU8I data (readBig32 data 0 + 5) = 0x6F ∧
      getU8I data (readBig32 data 0 + 6) = 0x6F ∧
      getU8I data (readBig32 data 0 + 7) = 0x76) :
    MP4Demuxer.probe data = .matched
      ⟨readBig32 data 0 + readBig32 data (readBig32 data 0),
       readBig32 data 0 + readBig32 data (readBig32 data 0),
       readBig32 data (readBig32 data 0 + readBig32 data (readBig32 data 0)),
       readBig32 data 0 + readBig32 data (readBig32 data 0) +
         readBig32 data (readBig32 data 0 + readBig32 data (readBig32 data 0)),
       false, true⟩ := by
  unfold MP4Demuxer.probe
  dsimp only
  rw [if_neg (by simp [hftyp.1, hftyp.2.1, hftyp.2.2.1, hftyp.2.2.2])]

/-- Witness for C4 at the concrete buffer (`ftyp` of size 16, `moov` of size
8, `free` of size 8): `dataOffset = 16 + 8 = 24`. -/
theorem probe_dataOffset_past_second_box_witness :
    MP4Demuxer.probe c4Buf = .matched ⟨24, 24, 8, 32, false, true⟩ :=
  probe_dataOffset_past_second_box c4Buf (by decide) (by decide)

/-- Counterexample for C4 as stated: on a buffer whose `ftyp` box has size 16
(followed by `moov`), the probe's `dataOffset` is 24, not 16. -/
theorem probe_dataOffset_not_ftyp_size :
    MP4Demuxer.probe c4Buf = .matched ⟨24, 24, 8, 32, false, true⟩ ∧
    readBig32 c4Buf 0 = 16 ∧ (24 : Int) ≠ 16 := by decide
